import Mathlib

/-!
# Verification of `mockcache` (`mockcache.py`)

A shallow embedding of the dictionary-based mock memcached client
`mockcache.Client`.  The instance attribute `self.dictionary` maps keys to
pairs `(value, expiration)` where the expiration is either `None` (never
expires) or an absolute `datetime` timestamp.  We model:

* keys as `String`;
* stored Python values as `Val` (the module only ever stores strings, or
  the integers produced by `incr`/`decr`);
* `datetime` timestamps as `Int` (any linearly ordered clock works; only
  comparisons, `now + timedelta(0, t)` and `fromtimestamp(t)` occur);
* the dictionary as an association list `Store` with Python-`dict`
  observable behaviour (lookup of the binding, overwriting insert,
  deletion of the key's binding);
* each method of `Client` as a function taking the store (and, where the
  source calls `datetime.datetime.now()`, an explicit clock) and returning
  its Python return value together with the updated store.  A method that
  can raise returns `Except PyErr`.
-/

set_option autoImplicit false

namespace Mockcache

/-- A Python value stored in the cache dictionary.  `Client` stores the
values handed to `set`/`add`/`replace` (strings in every documented use),
the string concatenations produced by `append`/`prepend`, and the integers
produced by `incr`/`decr`. -/
inductive Val where
  | str (s : String)
  | int (n : Int)
deriving DecidableEq

/-- One dictionary entry: `(value, expiration)`, where `None` means the
entry never expires and `some t` is an absolute timestamp. -/
abbrev Entry := Val × Option Int

/-- The model of `self.dictionary`: an association list from keys to
entries.  Keys of a Python `dict` are unique, which the operations below
preserve. -/
abbrev Store := List (String × Entry)

/-- `dictionary[key]` / `key in dictionary`: the entry bound to `key`, or
`none` when the key is absent (Python raises `KeyError`, which every
caller in the module catches or pre-checks). -/
def lookup (st : Store) (key : String) : Option Entry :=
  match st with
  | [] => none
  | (k, e) :: rest => if k = key then some e else lookup rest key

/-- `dictionary[key] = entry`: overwrite the binding of `key` if present,
otherwise add a new binding. -/
def insert (st : Store) (key : String) (e : Entry) : Store :=
  match st with
  | [] => [(key, e)]
  | (k, e0) :: rest =>
      if k = key then (key, e) :: rest else (k, e0) :: insert rest key e

/-- `del dictionary[key]`: remove the binding of `key`.  (A Python `dict`
holds at most one binding per key; removing every binding of `key` from
the association list models that.) -/
def erase (st : Store) (key : String) : Store :=
  match st with
  | [] => []
  | (k, e0) :: rest =>
      if k = key then erase rest key else (k, e0) :: erase rest key

/-- Python `str(value)` for a stored value: strings are returned as-is,
integers print in decimal (with a leading `-` when negative). -/
def pyStr (v : Val) : String :=
  match v with
  | .str s => s
  | .int n => toString n

/-- Decimal digits to a natural number; `none` unless the character list
is nonempty and all digits. -/
def digitsToNat (cs : List Char) : Option Nat :=
  if cs ≠ [] ∧ cs.all Char.isDigit then
    some (cs.foldl (fun a c => a * 10 + (c.toNat - 48)) 0)
  else
    none

/-- Strip whitespace from both ends of a character list. -/
def trimChars (cs : List Char) : List Char :=
  ((cs.dropWhile Char.isWhitespace).reverse.dropWhile Char.isWhitespace).reverse

/-- Python `int(s)` on a string: surrounding whitespace stripped, an
optional sign, then decimal digits; `none` models the `ValueError` raised
otherwise.  (Digit-group underscores are not modelled; no claim needs
them.) -/
def parseIntStr (s : String) : Option Int :=
  match trimChars s.data with
  | '-' :: cs => (digitsToNat cs).map (fun n => -(n : Int))
  | '+' :: cs => (digitsToNat cs).map (fun n => (n : Int))
  | cs => (digitsToNat cs).map (fun n => (n : Int))

/-- Python `int(value)` on a stored value: the identity on integers,
string parsing on strings; `none` models the `ValueError`. -/
def pyInt (v : Val) : Option Int :=
  match v with
  | .int n => some n
  | .str s => parseIntStr s

/-- The Python exceptions the module can actually raise. -/
inductive PyErr where
  | nameError
  | valueError
deriving DecidableEq

/-- The expiration computed by `Client.set` from its `time` argument and
the current clock:

    if not time:
        time = None
    elif time < 60 * 60 * 24 * 30:
        time = datetime.datetime.now() + datetime.timedelta(0, time)
    else:
        time = datetime.datetime.fromtimestamp(time)
-/
def setExp (time now : Int) : Option Int :=
  if time = 0 then none
  else if time < 60 * 60 * 24 * 30 then some (now + time)
  else some time

/-- `Client.set(key, val, time=0)`: stores `(val, expiration)` under `key`
and returns 1. -/
def set (st : Store) (key : String) (val : Val) (time now : Int) :
    Nat × Store :=
  (1, insert st key (val, setExp time now))

/-- `Client.add(key, val, time=0)`: returns 0 untouched when `key` is
already a dictionary key (no expiry check), otherwise defers to `set`. -/
def add (st : Store) (key : String) (val : Val) (time now : Int) :
    Nat × Store :=
  if (lookup st key).isSome then (0, st) else set st key val time now

/-- `Client.replace(key, val, time=0)`: returns 0 untouched when `key` is
not a dictionary key, otherwise defers to `set`. -/
def replace (st : Store) (key : String) (val : Val) (time now : Int) :
    Nat × Store :=
  if (lookup st key).isSome then set st key val time now else (0, st)

/-- `Client.get(key)`: `None` on a missing key; on a hit, if the entry
carries an expiration strictly earlier than `datetime.datetime.now()` the
entry is deleted and `None` returned, otherwise the value is returned. -/
def get (st : Store) (key : String) (now : Int) : Option Val × Store :=
  match lookup st key with
  | none => (none, st)
  | some (val, exptime) =>
      match exptime with
      | none => (some val, st)
      | some e => if e < now then (none, erase st key) else (some val, st)

/-- The generator consumed by `dict(...)` in `Client.get_multi`.  The
source binds `now = datetime.datetime.now` (the *function*) and evaluates
`not exp or exp > now()` for each present key, so the clock is read once
per present key that carries a non-`None` expiration; `clock i` is the
value of the `i`-th such read.  The dictionary itself is not modified. -/
def getMultiGo (st : Store) (clock : Nat → Int) :
    List String → Nat → List (String × Val)
  | [], _ => []
  | k :: ks, i =>
      match lookup st k with
      | none => getMultiGo st clock ks i
      | some (v, none) => (k, v) :: getMultiGo st clock ks i
      | some (v, some e) =>
          if clock i < e then (k, v) :: getMultiGo st clock ks (i + 1)
          else getMultiGo st clock ks (i + 1)

/-- `Client.get_multi(keys)`: the resulting key-to-value mapping (as the
association list in `keys` order) together with the untouched store. -/
def get_multi (st : Store) (keys : List String) (clock : Nat → Int) :
    List (String × Val) × Store :=
  (getMultiGo st clock keys 0, st)

/-- The spec's description of `get_multi`, for comparison with the code:
each requested key present in the store and not expired against ONE single
timestamp `now` captured at call start is included. -/
def getMultiSpec (st : Store) (keys : List String) (now : Int) :
    List (String × Val) :=
  match keys with
  | [] => []
  | k :: ks =>
      match lookup st k with
      | none => getMultiSpec st ks now
      | some (v, none) => (k, v) :: getMultiSpec st ks now
      | some (v, some e) =>
          if now < e then (k, v) :: getMultiSpec st ks now
          else getMultiSpec st ks now

/-- `Client.delete(key, time=0)`.  Its body begins

    if key in dictionary:

but no name `dictionary` is in scope there: the module defines no global
`dictionary`, `delete` has no such local, and the instance attribute is
only reachable as `self.dictionary` (compare `get_multi`, which first
binds the local `dictionary = self.dictionary`).  Evaluating the
membership test therefore raises `NameError` on every call, before any
key is looked up, deleted, or re-set; the remainder of the body
(`del self.dictionary[key]` / `return 1` / `self.set(...)` / `return 0`)
is unreachable.  The denotation is the constant `NameError`. -/
def delete (st : Store) (key : String) (time : Int) :
    Except PyErr (Nat × Store) :=
  Except.error PyErr.nameError

/-- `Client.incr(key, delta=1)`: `None` on a missing key (the `KeyError`
is caught); otherwise stores `int(value) + delta` under the unchanged
expiration and returns it.  `int(value)` on a non-integer-parsable string
raises `ValueError` (uncaught). -/
def incr (st : Store) (key : String) (delta : Int) :
    Except PyErr (Option Int × Store) :=
  match lookup st key with
  | none => Except.ok (none, st)
  | some (value, exp) =>
      match pyInt value with
      | none => Except.error PyErr.valueError
      | some n => Except.ok (some (n + delta), insert st key (.int (n + delta), exp))

/-- `Client.decr(key, delta=1)`: literally `return self.incr(key, -delta)`. -/
def decr (st : Store) (key : String) (delta : Int) :
    Except PyErr (Option Int × Store) :=
  incr st key (-delta)

/-- `Client.append(key, val)`: on a present key stores
`str(old) + val` under the unchanged expiration and returns 1; the
`KeyError` of a missing key is caught and 0 returned, nothing stored. -/
def append (st : Store) (key : String) (val : String) : Nat × Store :=
  match lookup st key with
  | none => (0, st)
  | some (old, exp) => (1, insert st key (.str (pyStr old ++ val), exp))

/-- `Client.prepend(key, val)`: on a present key stores
`val + str(old)` under the unchanged expiration and returns 1; the
`KeyError` of a missing key is caught and 0 returned, nothing stored. -/
def prepend (st : Store) (key : String) (val : String) : Nat × Store :=
  match lookup st key with
  | none => (0, st)
  | some (old, exp) => (1, insert st key (.str (val ++ pyStr old), exp))

/-! ## Dictionary lemmas -/

theorem lookup_insert (st : Store) (key : String) (e : Entry) :
    lookup (insert st key e) key = some e := by
  induction st with
  | nil => simp [insert, lookup]
  | cons p rest ih =>
      obtain ⟨k, e0⟩ := p
      by_cases h : k = key
      · simp [insert, lookup, h]
      · simp [insert, lookup, h, ih]

theorem lookup_erase (st : Store) (key : String) :
    lookup (erase st key) key = none := by
  induction st with
  | nil => simp [erase, lookup]
  | cons p rest ih =>
      obtain ⟨k, e0⟩ := p
      by_cases h : k = key
      · simp [erase, h, ih]
      · simp [erase, lookup, h, ih]

/-- With a clock that yields the same timestamp at every read, the
generator of `get_multi` computes exactly the spec's single-timestamp
filter. -/
theorem getMultiGo_const (st : Store) (t : Int) (keys : List String)
    (i : Nat) :
    getMultiGo st (fun _ => t) keys i = getMultiSpec st keys t := by
  induction keys generalizing i with
  | nil => rfl
  | cons k ks ih =>
      simp only [getMultiGo, getMultiSpec]
      cases h : lookup st k with
      | none => exact ih i
      | some entry =>
          obtain ⟨v, exp⟩ := entry
          cases exp with
          | none => simp [ih]
          | some e =>
              by_cases ht : t < e
              · simp [ht, ih]
              · simp [ht, ih]

/-- A key whose entry is expired against `t` (expiration not strictly
later than `t`) never appears among the keys of the spec filter. -/
theorem getMultiSpec_not_mem (st : Store) (t : Int) (keys : List String)
    (k : String) (v : Val) (e : Int)
    (hl : lookup st k = some (v, some e)) (he : ¬ t < e) :
    k ∉ (getMultiSpec st keys t).map Prod.fst := by
  induction keys with
  | nil => simp [getMultiSpec]
  | cons q ks ih =>
      simp only [getMultiSpec]
      by_cases hq : q = k
      · subst hq
        rw [hl]
        simp [he, ih]
      · cases hlq : lookup st q with
        | none => exact ih
        | some entry =>
            obtain ⟨w, exp⟩ := entry
            cases exp with
            | none =>
                simp only [List.map_cons, List.mem_cons]
                intro hmem
                rcases hmem with hmem | hmem
                · exact hq hmem.symm
                · exact ih hmem
            | some e2 =>
                by_cases ht : t < e2
                · simp only [ht, if_true, List.map_cons, List.mem_cons]
                  intro hmem
                  rcases hmem with hmem | hmem
                  · exact hq hmem.symm
                  · exact ih hmem
                · simpa [ht] using ih

/-! ## Claims -/

/-- C1: the claim states that `delete(k, 0)` never raises, removes a
present key returning 1 and returns 0 on an absent key.  The code
disagrees: the membership test `if key in dictionary:` references the
unbound name `dictionary` (the attribute is only reachable as
`self.dictionary`), so every call to `delete` — present key or not —
raises `NameError` and neither removes the key nor returns. -/
theorem delete_zero_always_raises (st : Store) (k : String) :
    delete st k 0 = Except.error PyErr.nameError := rfl

/-- C2: the claim states that on a present key with `time >= 1`,
`delete(k, time)` refreshes the entry's TTL via `set` and returns 0.  The
code disagrees: `delete` raises `NameError` on the unbound name
`dictionary` before the `time` branch is ever reached, here shown on the
store `{"a": (5, None)}` with `time = 2`. -/
theorem delete_positive_time_raises :
    delete [("a", (Val.int 5, none))] "a" 2 = Except.error PyErr.nameError :=
  rfl

/-- C3 counterexample: `get_multi` does not decide expiry against one
single timestamp captured at call start.  The source binds
`now = datetime.datetime.now` (the function) and calls `now()` afresh for
each present key with an expiration.  With both entries expiring at 5 and
a clock that reads 3 at the first read and 10 at the second, the call
keeps `k1` but drops `k2`, while filtering with the timestamp captured at
call start (3) keeps both. -/
theorem get_multi_not_single_timestamp :
    (get_multi [("k1", (Val.int 1, some 5)), ("k2", (Val.int 2, some 5))]
        ["k1", "k2"] (fun i => if i = 0 then 3 else 10)).1
      = [("k1", Val.int 1)] ∧
    getMultiSpec [("k1", (Val.int 1, some 5)), ("k2", (Val.int 2, some 5))]
        ["k1", "k2"] ((fun i => if i = 0 then 3 else 10) 0)
      = [("k1", Val.int 1), ("k2", Val.int 2)] := by
  constructor <;> rfl

/-- C3 (amended): `get_multi` re-reads the clock once per present key
carrying an expiration; whenever all those reads return the same
timestamp `t` (in particular whenever the clock does not advance during
the call), the result equals filtering the store's live entries with the
single timestamp `t`. -/
theorem get_multi_constant_clock_single_timestamp (st : Store)
    (keys : List String) (t : Int) :
    (get_multi st keys (fun _ => t)).1 = getMultiSpec st keys t :=
  getMultiGo_const st t keys 0

/-- C4: `add` checks only physical presence of the key — never the
expiration: on any present key (expired or not) it returns 0 and leaves
the store untouched; on an absent key it behaves exactly as `set`, which
returns 1. -/
theorem add_checks_presence_only (st : Store) (k : String) (v : Val)
    (t now : Int) :
    ((lookup st k).isSome = true → add st k v t now = (0, st)) ∧
    (lookup st k = none →
      add st k v t now = set st k v t now ∧ (add st k v t now).1 = 1) := by
  constructor
  · intro h
    simp [add, h]
  · intro h
    simp [add, h, set]

/-- C4 witness: on store `{"a": (1, exp 0)}` at current time 99 (the
entry is long expired) `add` still refuses and changes nothing; on the
empty store `add` coincides with `set`. -/
theorem add_checks_presence_only_witness :
    add [("a", (Val.int 1, some 0))] "a" (Val.str "x") 0 99
      = (0, [("a", (Val.int 1, some 0))]) ∧
    add ([] : Store) "b" (Val.str "x") 0 99
      = set ([] : Store) "b" (Val.str "x") 0 99 :=
  ⟨(add_checks_presence_only [("a", (Val.int 1, some 0))] "a"
      (Val.str "x") 0 99).1 (by decide),
   ((add_checks_presence_only ([] : Store) "b" (Val.str "x") 0 99).2
      rfl).1⟩

/-- C5: `set` always returns 1 and overwrites the key's entry, and the
stored expiration follows the three-way rule with boundary
2_592_000 = 60·60·24·30: `ttl = 0` stores no expiration;
`0 < ttl < 2_592_000` stores `now + ttl`; `ttl ≥ 2_592_000` stores `ttl`
itself as an absolute timestamp. -/
theorem set_ttl_rule (st : Store) (k : String) (v : Val) (t now : Int) :
    (set st k v t now).1 = 1 ∧
    (set st k v t now).2 = insert st k (v, setExp t now) ∧
    lookup (set st k v t now).2 k = some (v, setExp t now) ∧
    (t = 0 → setExp t now = none) ∧
    (0 < t → t < 2592000 → setExp t now = some (now + t)) ∧
    (2592000 ≤ t → setExp t now = some t) := by
  refine ⟨rfl, rfl, lookup_insert st k (v, setExp t now), ?_, ?_, ?_⟩
  · intro h
    simp [setExp, h]
  · intro h1 h2
    unfold setExp
    rw [if_neg (by omega), if_pos (by omega)]
  · intro h
    unfold setExp
    rw [if_neg (by omega), if_neg (by omega)]

/-- C5 witness: concrete instances of the three TTL cases and the
return value 1. -/
theorem set_ttl_rule_witness :
    (set [] "a" (Val.str "v") 5 100).1 = 1 ∧
    setExp 0 100 = none ∧
    setExp 5 100 = some 105 ∧
    setExp 2592000 100 = some 2592000 := by
  refine ⟨(set_ttl_rule [] "a" (Val.str "v") 5 100).1,
          (set_ttl_rule [] "a" (Val.str "v") 0 100).2.2.2.1 rfl, ?_, ?_⟩
  · have h := (set_ttl_rule [] "a" (Val.str "v") 5 100).2.2.2.2.1
      (by norm_num) (by norm_num)
    simpa using h
  · exact (set_ttl_rule [] "a" (Val.str "v") 2592000 100).2.2.2.2.2
      (by norm_num)

/-- C6: on a key whose entry carries an expiration strictly earlier than
the current time, `get` returns "no value" and evicts the key (it is
subsequently absent), while `get_multi` (here with the clock constant at
`now`) merely omits the key from its result and leaves the store
untouched — only `get` evicts. -/
theorem get_evicts_get_multi_does_not (st : Store) (k : String) (v : Val)
    (e now : Int) (keys : List String)
    (hl : lookup st k = some (v, some e)) (he : e < now) :
    get st k now = (none, erase st k) ∧
    lookup (erase st k) k = none ∧
    (get_multi st keys (fun _ => now)).2 = st ∧
    k ∉ ((get_multi st keys (fun _ => now)).1.map Prod.fst) := by
  refine ⟨?_, lookup_erase st k, rfl, ?_⟩
  · simp [get, hl, he]
  · have hrw : (get_multi st keys (fun _ => now)).1 = getMultiSpec st keys now :=
      getMultiGo_const st now keys 0
    rw [hrw]
    exact getMultiSpec_not_mem st now keys k v e hl (by omega)

/-- C6 witness: on `{"a": (1, exp 3), "b": (2, no exp)}` at time 5, `get`
evicts the expired `"a"` while `get_multi ["a", "b"]` omits it without
touching the store. -/
theorem get_evicts_get_multi_does_not_witness :
    get [("a", (Val.int 1, some 3)), ("b", (Val.int 2, none))] "a" 5
      = (none, erase [("a", (Val.int 1, some 3)), ("b", (Val.int 2, none))] "a") ∧
    lookup (erase [("a", (Val.int 1, some 3)), ("b", (Val.int 2, none))] "a") "a"
      = none ∧
    (get_multi [("a", (Val.int 1, some 3)), ("b", (Val.int 2, none))]
        ["a", "b"] (fun _ => 5)).2
      = [("a", (Val.int 1, some 3)), ("b", (Val.int 2, none))] ∧
    "a" ∉ ((get_multi [("a", (Val.int 1, some 3)), ("b", (Val.int 2, none))]
        ["a", "b"] (fun _ => 5)).1.map Prod.fst) :=
  get_evicts_get_multi_does_not
    [("a", (Val.int 1, some 3)), ("b", (Val.int 2, none))] "a" (Val.int 1)
    3 5 ["a", "b"] (by decide) (by decide)

/-- C7: `append`/`prepend` on an absent key return 0 and create nothing;
on a present key holding `old` with expiration `exp`, `append` stores
`str(old) ++ val` and `prepend` stores `val ++ str(old)`, each keeping
the expiration `exp` unchanged and returning 1. -/
theorem append_prepend_concat (st : Store) (k v : String) (old : Val)
    (exp : Option Int) :
    (lookup st k = none →
      append st k v = (0, st) ∧ prepend st k v = (0, st)) ∧
    (lookup st k = some (old, exp) →
      append st k v = (1, insert st k (.str (pyStr old ++ v), exp)) ∧
      lookup (append st k v).2 k = some (.str (pyStr old ++ v), exp) ∧
      prepend st k v = (1, insert st k (.str (v ++ pyStr old), exp)) ∧
      lookup (prepend st k v).2 k = some (.str (v ++ pyStr old), exp)) := by
  constructor
  · intro h
    simp [append, prepend, h]
  · intro h
    refine ⟨?_, ?_, ?_, ?_⟩ <;> simp [append, prepend, h, lookup_insert]

/-- C7 witness: the absent case on the empty store, and the present case
on `{"a": (22, exp 7)}` with `val = "3"`, checking the exact
concatenation order and the untouched expiration. -/
theorem append_prepend_concat_witness :
    (append ([] : Store) "n" "x" = (0, ([] : Store)) ∧
     prepend ([] : Store) "n" "x" = (0, ([] : Store))) ∧
    (append [("a", (Val.int 22, some 7))] "a" "3"
        = (1, insert [("a", (Val.int 22, some 7))] "a"
            (.str (pyStr (Val.int 22) ++ "3"), some 7)) ∧
     lookup (append [("a", (Val.int 22, some 7))] "a" "3").2 "a"
        = some (.str (pyStr (Val.int 22) ++ "3"), some 7) ∧
     prepend [("a", (Val.int 22, some 7))] "a" "3"
        = (1, insert [("a", (Val.int 22, some 7))] "a"
            (.str ("3" ++ pyStr (Val.int 22)), some 7)) ∧
     lookup (prepend [("a", (Val.int 22, some 7))] "a" "3").2 "a"
        = some (.str ("3" ++ pyStr (Val.int 22)), some 7)) :=
  ⟨(append_prepend_concat ([] : Store) "n" "x" (Val.int 0) none).1 rfl,
   (append_prepend_concat [("a", (Val.int 22, some 7))] "a" "3"
      (Val.int 22) (some 7)).2 rfl⟩

/-- C8: `decr(k, d)` is literally `incr(k, -d)`, and on a key holding an
integer-coercible value `x` with `int(x) = n`, `incr(k, d)` followed by
`decr(k, d)` restores the key's value to the integer `n`, with the `decr`
returning that restored integer (expiration untouched throughout). -/
theorem incr_decr_inverse (st : Store) (k : String) (d : Int) (x : Val)
    (e : Option Int) (n : Int)
    (hl : lookup st k = some (x, e)) (hn : pyInt x = some n) :
    decr st k d = incr st k (-d) ∧
    incr st k d
      = Except.ok (some (n + d), insert st k (Val.int (n + d), e)) ∧
    decr (insert st k (Val.int (n + d), e)) k d
      = Except.ok (some n,
          insert (insert st k (Val.int (n + d), e)) k (Val.int n, e)) ∧
    lookup (insert (insert st k (Val.int (n + d), e)) k (Val.int n, e)) k
      = some (Val.int n, e) := by
  refine ⟨rfl, ?_, ?_, lookup_insert _ _ _⟩
  · simp [incr, hl, hn]
  · simp [decr, incr, lookup_insert, pyInt, add_neg_cancel_right]

/-- C8 witness: on `{"a": (40, no exp)}` with delta 2, `incr` yields 42
and the subsequent `decr` restores 40. -/
theorem incr_decr_inverse_witness :
    decr [("a", (Val.int 40, none))] "a" 2
      = incr [("a", (Val.int 40, none))] "a" (-2) ∧
    incr [("a", (Val.int 40, none))] "a" 2
      = Except.ok (some (40 + 2),
          insert [("a", (Val.int 40, none))] "a" (Val.int (40 + 2), none)) ∧
    decr (insert [("a", (Val.int 40, none))] "a" (Val.int (40 + 2), none)) "a" 2
      = Except.ok (some 40,
          insert (insert [("a", (Val.int 40, none))] "a" (Val.int (40 + 2), none))
            "a" (Val.int 40, none)) ∧
    lookup (insert (insert [("a", (Val.int 40, none))] "a"
        (Val.int (40 + 2), none)) "a" (Val.int 40, none)) "a"
      = some (Val.int 40, none) :=
  incr_decr_inverse [("a", (Val.int 40, none))] "a" 2 (Val.int 40) none 40
    rfl rfl

/-- C9: `set(k, v)` with the default `time = 0` stores an entry with no
expiration, so a subsequent `get(k)` returns exactly `v` at any current
time (round-trip law); `set` returns 1. -/
theorem set_zero_get_roundtrip (st : Store) (k : String) (v : Val)
    (now1 now2 : Int) :
    (set st k v 0 now1).1 = 1 ∧
    get (set st k v 0 now1).2 k now2 = (some v, (set st k v 0 now1).2) := by
  refine ⟨rfl, ?_⟩
  have h : lookup (set st k v 0 now1).2 k = some (v, none) := by
    simpa [set, setExp] using lookup_insert st k (v, setExp 0 now1)
  simp [get, h]

/-- C10: `incr`, `decr`, `append` and `prepend` never consult the
expiration: on a key physically present with an expiration `e` already
strictly earlier than the current time, all four still succeed, the
integer ops return the updated integer, the string ops return 1, and the
already-past timestamp `e` is written back unchanged — the functions do
not even read the clock. -/
theorem mutators_ignore_expiry (st : Store) (k : String) (d : Int)
    (v : String) (x : Val) (e now n : Int)
    (hl : lookup st k = some (x, some e)) (he : e < now)
    (hn : pyInt x = some n) :
    incr st k d
      = Except.ok (some (n + d), insert st k (Val.int (n + d), some e)) ∧
    decr st k d
      = Except.ok (some (n + -d), insert st k (Val.int (n + -d), some e)) ∧
    append st k v = (1, insert st k (.str (pyStr x ++ v), some e)) ∧
    prepend st k v = (1, insert st k (.str (v ++ pyStr x), some e)) ∧
    lookup (insert st k (Val.int (n + d), some e)) k
      = some (Val.int (n + d), some e) := by
  refine ⟨?_, ?_, ?_, ?_, lookup_insert _ _ _⟩
  · simp [incr, hl, hn]
  · simp [decr, incr, hl, hn]
  · simp [append, hl]
  · simp [prepend, hl]

/-- C10 witness: on `{"a": ("7", exp 3)}` at current time 9 (expired),
`incr` by 5, `decr` by 5, `append "0"` and `prepend "0"` all succeed and
keep the stale expiration 3. -/
theorem mutators_ignore_expiry_witness :
    incr [("a", (Val.str "7", some 3))] "a" 5
      = Except.ok (some (7 + 5),
          insert [("a", (Val.str "7", some 3))] "a" (Val.int (7 + 5), some 3)) ∧
    decr [("a", (Val.str "7", some 3))] "a" 5
      = Except.ok (some (7 + -5),
          insert [("a", (Val.str "7", some 3))] "a" (Val.int (7 + -5), some 3)) ∧
    append [("a", (Val.str "7", some 3))] "a" "0"
      = (1, insert [("a", (Val.str "7", some 3))] "a"
          (.str (pyStr (Val.str "7") ++ "0"), some 3)) ∧
    prepend [("a", (Val.str "7", some 3))] "a" "0"
      = (1, insert [("a", (Val.str "7", some 3))] "a"
          (.str ("0" ++ pyStr (Val.str "7")), some 3)) ∧
    lookup (insert [("a", (Val.str "7", some 3))] "a"
        (Val.int (7 + 5), some 3)) "a"
      = some (Val.int (7 + 5), some 3) :=
  mutators_ignore_expiry [("a", (Val.str "7", some 3))] "a" 5 "0"
    (Val.str "7") 3 9 7 rfl (by decide) (by decide)

end Mockcache
